import Mathlib

/-!
Shallow embedding of the skip-tools library (TypeScript): an engine that
filters a list of tools offered to a language model by matching keywords
declared in each tool's description against conversation text, then re-adds
directly declared dependencies, truncates, and reports bookkeeping.

The embedding follows `src/index.ts` (the `SkipTools` class) and
`src/parser.ts`. The YAML block extraction (a regex plus the external
`js-yaml` loader) is an external collaborator of the core; it is modelled as
explicit function parameters `findBlock` (the regex match: matched text and
captured block content) and `yamlLoad` (the YAML load outcome), so every
theorem quantifies over their behavior.
-/

/-! ## Data model (src/types.ts) -/

inductive Role where
  | system
  | user
  | assistant
  | tool
  | function
deriving DecidableEq, Repr

inductive ContentPart where
  | text (t : String)
  | other
deriving DecidableEq, Repr

inductive MsgContent where
  | str (s : String)
  | parts (l : List ContentPart)
deriving DecidableEq, Repr

structure Message where
  role : Role
  content : Option MsgContent
  tool_calls : Bool := false
deriving DecidableEq, Repr

structure SkipConfig where
  depends_on : Option (List String) := none
  keywords : Option (List String) := none
deriving DecidableEq, Repr

structure Tool where
  name : String
  description : String
  skip : Option SkipConfig := none
deriving DecidableEq, Repr

structure ParsedTool where
  name : String
  description : String
  skip : Option SkipConfig
  originalDescription : String
  cleanDescription : String
deriving DecidableEq, Repr

structure FilterOptions where
  messages : List Message
  maxTools : Option Nat := none
  onlyNewMessages : Bool := false
deriving DecidableEq, Repr

structure FilterResult where
  tools : List ParsedTool
  totalOriginalCount : Nat
  filteredCount : Nat
  reason : String
  messagesProcessed : Nat
deriving DecidableEq, Repr

/-! ## JavaScript string primitives used by the code -/

/-- Whether `sub` occurs in `l` as a contiguous run. -/
def containsRun (sub : List Char) : List Char → Bool
  | [] => sub.isEmpty
  | c :: cs => sub.isPrefixOf (c :: cs) || containsRun sub cs

/-- JavaScript `s.includes(sub)`: `sub` occurs in `s` as a contiguous
substring. -/
def jsIncludes (s sub : String) : Bool :=
  containsRun sub.toList s.toList

/-- Remove the first occurrence of `pat` from `s` (JavaScript
`s.replace(pat, "")` with a plain-string pattern). -/
def removeFirst (pat : List Char) : List Char → List Char
  | [] => []
  | c :: cs => if pat.isPrefixOf (c :: cs) then (c :: cs).drop pat.length else c :: removeFirst pat cs

/-- JavaScript `s.replace(pat, "")`: delete the first occurrence of `pat`. -/
def replaceFirst (s pat : String) : String :=
  String.mk (removeFirst pat.toList s.toList)

/-- JavaScript `s.toLowerCase()`, character by character. -/
def jsToLower (s : String) : String :=
  String.mk (s.toList.map Char.toLower)

/-- JavaScript `s.startsWith(pre)`. -/
def jsStartsWith (s pre : String) : Bool :=
  pre.toList.isPrefixOf s.toList

/-- JavaScript `s.trim()`: strip leading and trailing whitespace. -/
def jsTrim (s : String) : String :=
  String.mk (((s.toList.dropWhile Char.isWhitespace).reverse.dropWhile Char.isWhitespace).reverse)

def splitAuxChars (p : Char → Bool) : List Char → List Char → List String
  | [], acc => [String.mk acc.reverse]
  | c :: cs, acc =>
    if p c then String.mk acc.reverse :: splitAuxChars p cs [] else splitAuxChars p cs (c :: acc)

/-- Split a string at every character satisfying `p`, keeping empty
fragments (the behavior of JavaScript split against single separator
characters; empty fragments are discarded afterwards by the length
filter). -/
def jsSplit (p : Char → Bool) (s : String) : List String :=
  splitAuxChars p s.toList []

/-! ## Annotation parser (src/parser.ts) -/

/-- Outcome of running the external `js-yaml` loader on the captured block
content: the load may throw, may produce a non-object value, or may produce
a mapping of type `α`. -/
inductive YamlOutcome (α : Type) where
  | loadError
  | nonObject
  | obj (cfg : α)
deriving DecidableEq, Repr

structure ParseDescResult (α : Type) where
  cleanDescription : String
  skipConfig : Option α
  warned : Bool
deriving DecidableEq, Repr

/-- Model of `parseToolDescription` from src/parser.ts. `findBlock` models the
`SKIP_YAML_REGEX` match against the description, returning the whole matched
text and the captured YAML content; `yamlLoad` models `yaml.load` together
with the object-shape check. A failed or non-object load is caught: the
block is still stripped, a warning is logged (`warned`), and no
configuration is returned. -/
def parseToolDescription {α : Type} (findBlock : String → Option (String × String))
    (yamlLoad : String → YamlOutcome α) (description : String) : ParseDescResult α :=
  match findBlock description with
  | none => { cleanDescription := jsTrim description, skipConfig := none, warned := false }
  | some (matched, yamlContent) =>
    let cleanDescription := jsTrim (replaceFirst description matched)
    match yamlLoad yamlContent with
    | .obj cfg => { cleanDescription := cleanDescription, skipConfig := some cfg, warned := false }
    | .loadError => { cleanDescription := cleanDescription, skipConfig := none, warned := true }
    | .nonObject => { cleanDescription := cleanDescription, skipConfig := none, warned := true }

/-- Model of `parseTools` from src/parser.ts: parse each description; the block's
configuration takes precedence, else fall back to a configuration supplied
directly on the `Tool` record (`skip: skipConfig || tool.skip`). -/
def parseTools (findBlock : String → Option (String × String))
    (yamlLoad : String → YamlOutcome SkipConfig) (tools : List Tool) : List ParsedTool :=
  tools.map (fun tool =>
    let r := parseToolDescription findBlock yamlLoad tool.description
    { name := tool.name
      description := tool.description
      skip := r.skipConfig.or tool.skip
      originalDescription := tool.description
      cleanDescription := r.cleanDescription })

/-! ## Filtering engine (src/index.ts) -/

structure SkipTools where
  parsedTools : List ParsedTool
  lastProcessedMessageCount : Nat
deriving DecidableEq, Repr

/-- The `depends_on` list the engine iterates for a tool:
`tool.skip?.depends_on`, or nothing when absent. -/
def depsOf (t : ParsedTool) : List String :=
  match t.skip with
  | none => []
  | some cfg => cfg.depends_on.getD []

/-- The literal message format named by the spec for a dangling
dependency. -/
def depErrorForm (toolName depName : String) : String :=
  "Tool \"" ++ toolName ++ "\" depends on \"" ++ depName ++ "\" which is not found in the provided tools list."

/-- The full error message thrown by `validateDependencies`. -/
def depErrorMsg (toolName depName : String) : String :=
  depErrorForm toolName depName ++ " Dependencies must reference other tools in the same list."

/-- Check one tool's `depends_on` entries against the set of all tool names,
failing on the first entry that resolves to no tool. -/
def checkDeps (toolNames : List String) (toolName : String) : List String → Except String Unit
  | [] => .ok ()
  | d :: ds => if toolNames.contains d then checkDeps toolNames toolName ds else .error (depErrorMsg toolName d)

def validateDependenciesGo (toolNames : List String) : List ParsedTool → Except String Unit
  | [] => .ok ()
  | t :: ts =>
    match checkDeps toolNames t.name (depsOf t) with
    | .ok _ => validateDependenciesGo toolNames ts
    | .error e => .error e

/-- Model of `validateDependencies` from src/index.ts: every `depends_on` entry of
every parsed tool must name some tool of the list; the first unresolved
entry aborts with `depErrorMsg`. -/
def validateDependencies (pts : List ParsedTool) : Except String Unit :=
  validateDependenciesGo (pts.map (fun t => t.name)) pts

/-- The constructor of the `SkipTools` class: parse all tools, then validate
dependencies; an unresolved dependency aborts construction. -/
def SkipTools.construct (findBlock : String → Option (String × String))
    (yamlLoad : String → YamlOutcome SkipConfig) (tools : List Tool) : Except String SkipTools :=
  let pts := parseTools findBlock yamlLoad tools
  match validateDependencies pts with
  | .ok _ => .ok { parsedTools := pts, lastProcessedMessageCount := 0 }
  | .error e => .error e

/-- The first unresolved (tool name, dependency name) pair of one tool, in
declaration order. -/
def firstUnresolvedDep (toolNames : List String) (toolName : String) : List String → Option (String × String)
  | [] => none
  | d :: ds => if toolNames.contains d then firstUnresolvedDep toolNames toolName ds else some (toolName, d)

def firstUnresolvedGo (toolNames : List String) : List ParsedTool → Option (String × String)
  | [] => none
  | t :: ts =>
    match firstUnresolvedDep toolNames t.name (depsOf t) with
    | some p => some p
    | none => firstUnresolvedGo toolNames ts

/-- The first unresolved dependency reference of the whole list, in
iteration order. -/
def firstUnresolved (pts : List ParsedTool) : Option (String × String) :=
  firstUnresolvedGo (pts.map (fun t => t.name)) pts

/-! ### Query extraction -/

def isTextPart : ContentPart → Bool
  | .text _ => true
  | .other => false

def partText : ContentPart → String
  | .text t => t
  | .other => ""

/-- Model of `extractTextFromContent` from src/index.ts: a flat string is used
verbatim; an array keeps only text-typed parts, joined with spaces; anything
else yields null. -/
def extractTextFromContent : Option MsgContent → Option String
  | some (.str s) => some s
  | some (.parts l) => some (String.intercalate " " ((l.filter isTextPart).map partText))
  | none => none

/-- JavaScript truthiness of `msg.content`: null and the empty string are
falsy; any array (even empty) is truthy. -/
def contentTruthy : Option MsgContent → Bool
  | none => false
  | some (.str s) => !(s == "")
  | some (.parts _) => true

/-- The filter `text => text && text.trim().length > 0`. -/
def optTextKeep : Option String → Bool
  | none => false
  | some s => !(s == "") && !(jsTrim s == "")

/-- The map `text => text!.trim()`. -/
def optTextTrim : Option String → String
  | none => ""
  | some s => jsTrim s

/-- The message filter: drop tool responses and assistant messages carrying
tool calls. -/
def keepMessage (msg : Message) : Bool :=
  if msg.role == Role.tool then false
  else if msg.role == Role.assistant && msg.tool_calls then false
  else true

structure ExtractResult where
  query : String
  messagesProcessed : Nat
deriving DecidableEq, Repr

/-- Model of `extractQueryFromMessages` from src/index.ts. With `onlyNewMessages`
set, only the slice from the previously recorded count onward is scanned;
`messagesProcessed` is always the total length of the supplied history. -/
def extractQueryFromMessages (lastProcessedMessageCount : Nat) (messages : List Message)
    (onlyNewMessages : Bool) : ExtractResult :=
  let messagesToProcess := if onlyNewMessages then messages.drop lastProcessedMessageCount else messages
  let nonToolMessages := messagesToProcess.filter keepMessage
  let contentful := nonToolMessages.filter (fun m => contentTruthy m.content)
  let texts := contentful.map (fun m => extractTextFromContent m.content)
  let kept := texts.filter optTextKeep
  let textContent := String.intercalate " " (kept.map optTextTrim)
  { query := textContent, messagesProcessed := messages.length }

/-! ### Keyword matching -/

/-- The per-keyword test of `filterByKeywords`: full-query substring
containment first, then word-level overlap for query words longer than two
characters. -/
def keywordMatches (queryLower : String) (queryWords : List String) (keyword : String) : Bool :=
  jsIncludes queryLower (jsToLower keyword) ||
    queryWords.any (fun word =>
      decide (word.length > 2) &&
        (jsIncludes (jsToLower keyword) word || jsIncludes word (jsToLower keyword) ||
          jsStartsWith (jsToLower keyword) word || jsStartsWith word (jsToLower keyword)))

/-- The per-tool predicate of `filterByKeywords`: a tool with no skip
configuration, no keyword list, or an empty keyword list always passes;
otherwise any matching keyword suffices. -/
def toolPasses (queryLower : String) (queryWords : List String) (tool : ParsedTool) : Bool :=
  match tool.skip with
  | none => true
  | some cfg =>
    match cfg.keywords with
    | none => true
    | some kws => kws.isEmpty || kws.any (keywordMatches queryLower queryWords)

/-- The query words considered for word-level matching: whitespace-split
fragments of the lowercase query longer than two characters. -/
def queryWordsOf (queryLower : String) : List String :=
  (jsSplit (fun c => c.isWhitespace) queryLower).filter (fun word => word.length > 2)

/-- Model of `filterByKeywords` from src/index.ts. -/
def filterByKeywords (tools : List ParsedTool) (query : String) : List ParsedTool :=
  let queryLower := jsToLower query
  let queryWords := queryWordsOf queryLower
  tools.filter (toolPasses queryLower queryWords)

/-! ### Dependency expansion -/

/-- Model of `addDependencies` from src/index.ts: collect the names of the filtered
tools and every direct `depends_on` entry of a filtered tool, then return
the subsequence of the engine's parsed list whose names are in that set. -/
def addDependencies (parsedTools filteredTools : List ParsedTool) : List ParsedTool :=
  let resultNames := filteredTools.map (fun t => t.name) ++ filteredTools.flatMap depsOf
  parsedTools.filter (fun t => resultNames.contains t.name)

/-! ### Reason string and the top-level filter -/

/-- Model of `generateFilterReason` from src/index.ts. It reads
`lastProcessedMessageCount` as it stands when called, which inside `filter`
is after the update to the total message count. -/
def generateFilterReason (options : FilterOptions) (resultCount : Nat)
    (lastProcessedMessageCount : Nat) : String :=
  let reasons : List String :=
    (if options.messages.length > 0 then
      let messageScope := if options.onlyNewMessages then "new" else "all"
      let messageCount :=
        if options.onlyNewMessages then options.messages.length - lastProcessedMessageCount
        else options.messages.length
      ["filtered by keywords from " ++ toString messageCount ++ " " ++ messageScope ++
        " messages, dependencies added"]
    else []) ++
    (match options.maxTools with
     | some m => if !(m == 0) && resultCount == m then ["limited to " ++ toString m ++ " tools"] else []
     | none => [])
  if reasons.length > 0 then String.intercalate ", " reasons else "no filters applied"

/-- Model of `filter` from src/index.ts, with the engine state threaded explicitly:
extract the query (reading the previous count), record the new total count,
filter by keywords when the query is non-empty, add dependencies, truncate
to `maxTools`, and report. -/
def SkipTools.filter (e : SkipTools) (options : FilterOptions) : FilterResult × SkipTools :=
  let extracted := extractQueryFromMessages e.lastProcessedMessageCount options.messages options.onlyNewMessages
  let newCount := options.messages.length
  let afterKeywords :=
    if !(extracted.query == "") then filterByKeywords e.parsedTools extracted.query else e.parsedTools
  let withDeps := addDependencies e.parsedTools afterKeywords
  let finalTools :=
    match options.maxTools with
    | some m => if !(m == 0) && withDeps.length > m then withDeps.take m else withDeps
    | none => withDeps
  ({ tools := finalTools
     totalOriginalCount := e.parsedTools.length
     filteredCount := finalTools.length
     reason := generateFilterReason options finalTools.length newCount
     messagesProcessed := extracted.messagesProcessed },
   { e with lastProcessedMessageCount := newCount })

/-- Model of `getAllTools` from src/index.ts. -/
def SkipTools.getAllTools (e : SkipTools) : List ParsedTool :=
  e.parsedTools

/-! ## Spec-side predicates (stated from the specification's words, to be
compared with the code) -/

/-- The specification's keyword-match relation: the lowercase query contains
the lowercase keyword as a substring, or some whitespace-separated query
word of length greater than two satisfies one of: the word contains the
keyword, the keyword contains the word, the keyword starts with the word, or
the word starts with the keyword. -/
def specKeywordMatches (query keyword : String) : Prop :=
  jsIncludes (jsToLower query) (jsToLower keyword) = true ∨
    ∃ word ∈ jsSplit (fun c => c.isWhitespace) (jsToLower query),
      word.length > 2 ∧
        (jsIncludes word (jsToLower keyword) = true ∨ jsIncludes (jsToLower keyword) word = true ∨
          jsStartsWith (jsToLower keyword) word = true ∨ jsStartsWith word (jsToLower keyword) = true)

/-- The keyword list of a tool's configuration, when any. -/
def toolKeywords (t : ParsedTool) : Option (List String) :=
  match t.skip with
  | none => none
  | some cfg => cfg.keywords

/-- The specification's inclusion condition for keyword filtering: a tool
whose configuration has no keywords or an empty keyword list is included; a
tool with keywords is included exactly when at least one keyword matches. -/
def specToolIncluded (query : String) (t : ParsedTool) : Prop :=
  (toolKeywords t = none ∨ toolKeywords t = some []) ∨
    ∃ kws, toolKeywords t = some kws ∧ ∃ kw ∈ kws, specKeywordMatches query kw

/-! ## Dynamic-value model of ill-shaped configurations

The TypeScript code is untyped at runtime: a YAML block can set `depends_on`
or `keywords` to a value that is not an array of strings, and nothing
converts or rejects it before the filtering code touches it. The following
mirrors what the JavaScript operations in `filterByKeywords` and
`validateDependencies` do on such values: truthiness tests, `.length`
access, and calling `.some` / `.forEach` (a TypeError on non-arrays,
modelled as an `Except` error). -/

inductive JsVal where
  | arr (l : List String)
  | str (s : String)
  | num (n : Nat)
  | nullVal
deriving DecidableEq, Repr

/-- JavaScript truthiness of a value. -/
def jsTruthy : JsVal → Bool
  | .arr _ => true
  | .str s => !(s == "")
  | .num n => !(n == 0)
  | .nullVal => false

/-- JavaScript `v.length === 0`: arrays and strings report their length;
numbers and null have no `length` property (`undefined === 0` is false). -/
def jsLengthIsZero : JsVal → Bool
  | .arr l => l.length == 0
  | .str s => s.length == 0
  | .num _ => false
  | .nullVal => false

def isArray : JsVal → Bool
  | .arr _ => true
  | _ => false

structure DynSkipConfig where
  depends_on : Option JsVal := none
  keywords : Option JsVal := none
deriving DecidableEq, Repr

structure DynParsedTool where
  name : String
  skip : Option DynSkipConfig := none
deriving DecidableEq, Repr

def typeErrorSome : String :=
  "TypeError: tool.skip.keywords.some is not a function"

def typeErrorForEach : String :=
  "TypeError: tool.skip.depends_on.forEach is not a function"

/-- The predicate of `filterByKeywords` evaluated with JavaScript dynamic
semantics on the keyword value: `!tool.skip?.keywords ||
tool.skip.keywords.length === 0` returns true, else `.some` is called,
which is a TypeError unless the value is an array. -/
def dynToolPasses (queryLower : String) (queryWords : List String)
    (tool : DynParsedTool) : Except String Bool :=
  match tool.skip with
  | none => .ok true
  | some cfg =>
    match cfg.keywords with
    | none => .ok true
    | some kv =>
      if !(jsTruthy kv) || jsLengthIsZero kv then .ok true
      else
        match kv with
        | .arr l => .ok (l.any (keywordMatches queryLower queryWords))
        | _ => .error typeErrorSome

def dynFilterGo (queryLower : String) (queryWords : List String) :
    List DynParsedTool → Except String (List DynParsedTool)
  | [] => .ok []
  | t :: ts =>
    match dynToolPasses queryLower queryWords t with
    | .error e => .error e
    | .ok b =>
      match dynFilterGo queryLower queryWords ts with
      | .error e => .error e
      | .ok rest => .ok (if b then t :: rest else rest)

/-- Model of `filterByKeywords` under JavaScript dynamic semantics, propagating a
TypeError when a keyword value is truthy but not an array. -/
def dynFilterByKeywords (tools : List DynParsedTool) (query : String) :
    Except String (List DynParsedTool) :=
  let queryLower := jsToLower query
  let queryWords := queryWordsOf queryLower
  dynFilterGo queryLower queryWords tools

/-- One tool's step of `validateDependencies` under JavaScript dynamic
semantics: `tool.skip?.depends_on` must be truthy to be iterated, and
`.forEach` is a TypeError unless the value is an array. -/
def dynCheckTool (toolNames : List String) (tool : DynParsedTool) : Except String Unit :=
  match tool.skip with
  | none => .ok ()
  | some cfg =>
    match cfg.depends_on with
    | none => .ok ()
    | some dv =>
      if !(jsTruthy dv) then .ok ()
      else
        match dv with
        | .arr l => checkDeps toolNames tool.name l
        | _ => .error typeErrorForEach

def dynValidateDependenciesGo (toolNames : List String) : List DynParsedTool → Except String Unit
  | [] => .ok ()
  | t :: ts =>
    match dynCheckTool toolNames t with
    | .ok _ => dynValidateDependenciesGo toolNames ts
    | .error e => .error e

/-- Model of `validateDependencies` under JavaScript dynamic semantics. -/
def dynValidateDependencies (tools : List DynParsedTool) : Except String Unit :=
  dynValidateDependenciesGo (tools.map (fun t => t.name)) tools

/-- Model of `validateSkipConfig` from src/parser.ts, on a configuration object: it
rejects a `depends_on` or `keywords` value that is truthy and not an array
(a falsy value passes the `config.depends_on &&` guard). Note that nothing
in src/index.ts or src/parser.ts calls this function. -/
def validateSkipConfig (config : DynSkipConfig) : Bool :=
  (match config.depends_on with
   | some v => !(jsTruthy v) || isArray v
   | none => true) &&
  (match config.keywords with
   | some v => !(jsTruthy v) || isArray v
   | none => true)

/-- The direct dependency names one tool contributes in `addDependencies`,
under JavaScript dynamic semantics: a falsy `depends_on` is skipped by the
`tool.skip?.depends_on` guard, an array is iterated, and calling `.forEach`
on anything else is a TypeError. -/
def dynDepsOf (t : DynParsedTool) : Except String (List String) :=
  match t.skip with
  | none => .ok []
  | some cfg =>
    match cfg.depends_on with
    | none => .ok []
    | some dv =>
      if !(jsTruthy dv) then .ok []
      else
        match dv with
        | .arr l => .ok l
        | _ => .error typeErrorForEach

def dynCollectDeps : List DynParsedTool → Except String (List String)
  | [] => .ok []
  | t :: ts =>
    match dynDepsOf t with
    | .error e => .error e
    | .ok ds =>
      match dynCollectDeps ts with
      | .error e => .error e
      | .ok rest => .ok (ds ++ rest)

/-- Model of `addDependencies` under JavaScript dynamic semantics. -/
def dynAddDependencies (parsedTools filteredTools : List DynParsedTool) :
    Except String (List DynParsedTool) :=
  match dynCollectDeps filteredTools with
  | .error e => .error e
  | .ok deps =>
    let resultNames := filteredTools.map (fun f => f.name) ++ deps
    .ok (parsedTools.filter (fun t => resultNames.contains t.name))

structure DynSkipTools where
  parsedTools : List DynParsedTool
  lastProcessedMessageCount : Nat
deriving DecidableEq, Repr

/-- Model of `filter` under JavaScript dynamic semantics. The message
counter is updated before the keyword step (line 48 of src/index.ts precedes
line 52), so the new engine state exists even when a TypeError propagates
out of keyword filtering or dependency expansion; the tool-list result is
fallible. -/
def DynSkipTools.filter (e : DynSkipTools) (options : FilterOptions) :
    Except String (List DynParsedTool) × DynSkipTools :=
  let extracted := extractQueryFromMessages e.lastProcessedMessageCount options.messages
    options.onlyNewMessages
  let newCount := options.messages.length
  let result :=
    match (if !(extracted.query == "") then dynFilterByKeywords e.parsedTools extracted.query
           else .ok e.parsedTools) with
    | .error err => .error err
    | .ok afterKeywords =>
      match dynAddDependencies e.parsedTools afterKeywords with
      | .error err => .error err
      | .ok withDeps =>
        .ok (match options.maxTools with
          | some m => if !(m == 0) && withDeps.length > m then withDeps.take m else withDeps
          | none => withDeps)
  (result, { e with lastProcessedMessageCount := newCount })

/-! ## Concrete instances used by counterexamples and witnesses -/

/-- A block matcher that finds no configuration block in any description. -/
def noBlock : String → Option (String × String) := fun _ => none

/-- A YAML loader on which every load fails. -/
def failLoad : String → YamlOutcome SkipConfig := fun _ => .loadError

/-- A description carrying a (malformed) configuration block. -/
def blockDescription : String := "Prose\nskip:\n  bad: ["

/-- A block matcher that recognizes the block of `blockDescription`. -/
def blockFinder : String → Option (String × String) :=
  fun d => if d == blockDescription then some ("\nskip:\n  bad: [", "  bad: [") else none

/-- A tool whose description carries a malformed block and which also
supplies a configuration directly on the record. -/
def blockTool : Tool :=
  { name := "T", description := blockDescription, skip := some { keywords := some ["zzz"] } }

/-- A tool whose description carries a malformed block and which supplies no
direct configuration. -/
def plainBlockTool : Tool :=
  { name := "T", description := blockDescription, skip := none }

/-- Two keyword-less parsed tools. -/
def twoTools : List ParsedTool :=
  [{ name := "alpha", description := "", skip := none, originalDescription := "", cleanDescription := "" },
   { name := "beta", description := "", skip := none, originalDescription := "", cleanDescription := "" }]

/-- A parsed tool declaring a dependency on a tool that is not in any list
it is placed in. -/
def danglingTool : ParsedTool :=
  { name := "A", description := "", skip := some { depends_on := some ["B"] },
    originalDescription := "", cleanDescription := "" }

/-- The `Tool` record parsed into `danglingTool` (no block in the
description, configuration supplied directly). -/
def danglingToolRecord : Tool :=
  { name := "A", description := "", skip := some { depends_on := some ["B"] } }

/-! ## Theorems -/

theorem keywordMatches_iff (query keyword : String) :
    keywordMatches (jsToLower query) (queryWordsOf (jsToLower query)) keyword = true ↔
      specKeywordMatches query keyword := by
  simp only [keywordMatches, specKeywordMatches, queryWordsOf, Bool.or_eq_true,
    List.any_eq_true, List.mem_filter, Bool.and_eq_true, decide_eq_true_eq]
  constructor
  · rintro (h | ⟨w, ⟨hw, _⟩, hlen, hd⟩)
    · exact Or.inl h
    · exact Or.inr ⟨w, hw, hlen, by tauto⟩
  · rintro (h | ⟨w, hw, hlen, hd⟩)
    · exact Or.inl h
    · exact Or.inr ⟨w, ⟨hw, hlen⟩, hlen, by tauto⟩

theorem toolPasses_iff (query : String) (t : ParsedTool) :
    toolPasses (jsToLower query) (queryWordsOf (jsToLower query)) t = true ↔ specToolIncluded query t := by
  rcases t with ⟨n, d, sk, od, cd⟩
  rcases sk with _ | ⟨dep, kws⟩
  · simp [toolPasses, specToolIncluded, toolKeywords]
  · rcases kws with _ | ⟨⟩ | ⟨k, ks⟩
    · simp [toolPasses, specToolIncluded, toolKeywords]
    · simp [toolPasses, specToolIncluded, toolKeywords]
    · show ((k :: ks).isEmpty || (k :: ks).any (keywordMatches (jsToLower query) (queryWordsOf (jsToLower query)))) = true ↔ _
      rw [List.isEmpty_cons, Bool.false_or, List.any_eq_true]
      simp only [specToolIncluded, toolKeywords]
      constructor
      · rintro ⟨kw, hkw, hm⟩
        exact Or.inr ⟨k :: ks, rfl, kw, hkw, (keywordMatches_iff query kw).mp hm⟩
      · rintro (hbad | ⟨kws', hkws', kw, hkw, hm⟩)
        · rcases hbad with h | h <;> simp at h
        · injection hkws' with hkws'
          subst hkws'
          exact ⟨kw, hkw, (keywordMatches_iff query kw).mpr hm⟩

/-- C1: for every tool list and query, `filterByKeywords` returns an
order-preserving subsequence of its input; a tool is in the output iff it is
in the input and either its configuration has no keywords or an empty
keyword list, or at least one of its keywords matches in the specified
sense. -/
theorem filterByKeywords_correct (tools : List ParsedTool) (query : String) :
    (filterByKeywords tools query).Sublist tools ∧
    ∀ t, t ∈ filterByKeywords tools query ↔ t ∈ tools ∧ specToolIncluded query t := by
  constructor
  · show (tools.filter (toolPasses (jsToLower query) (queryWordsOf (jsToLower query)))).Sublist tools
    exact List.filter_sublist tools
  · intro t
    show t ∈ tools.filter (toolPasses (jsToLower query) (queryWordsOf (jsToLower query))) ↔ _
    rw [List.mem_filter]
    exact and_congr_right fun _ => toolPasses_iff query t

/-- C2: dependency expansion returns exactly the tools of the
construction-time list whose name is the name of a filtered tool or a direct
`depends_on` entry of a filtered tool, in construction-time order; no other
tool (in particular no dependency of a dependency) is added. -/
theorem addDependencies_correct (parsedTools filteredTools : List ParsedTool) :
    (addDependencies parsedTools filteredTools).Sublist parsedTools ∧
    ∀ t, t ∈ addDependencies parsedTools filteredTools ↔
      t ∈ parsedTools ∧
        (t.name ∈ filteredTools.map (fun f => f.name) ∨ ∃ f ∈ filteredTools, t.name ∈ depsOf f) := by
  constructor
  · show (parsedTools.filter _).Sublist parsedTools
    exact List.filter_sublist parsedTools
  · intro t
    show t ∈ parsedTools.filter
        (fun x => (filteredTools.map (fun f => f.name) ++ filteredTools.flatMap depsOf).contains x.name) ↔ _
    rw [List.mem_filter]
    refine and_congr_right fun _ => ?_
    simp [List.mem_append, List.mem_flatMap]

theorem checkDeps_ok_iff (names : List String) (tn : String) (ds : List String) :
    checkDeps names tn ds = .ok () ↔ ∀ d ∈ ds, d ∈ names := by
  induction ds with
  | nil => simp [checkDeps]
  | cons d ds ih =>
    simp only [checkDeps]
    by_cases h : names.contains d = true
    · rw [if_pos h, ih]
      have hd : d ∈ names := by simpa using h
      simp [hd]
    · rw [if_neg h]
      have hd : d ∉ names := by simpa using h
      simp only [reduceCtorEq, false_iff]
      intro hall
      exact hd (hall d (List.mem_cons_self d ds))

theorem checkDeps_eq_firstUnresolvedDep (names : List String) (tn : String) (ds : List String) :
    checkDeps names tn ds =
      match firstUnresolvedDep names tn ds with
      | none => .ok ()
      | some p => .error (depErrorMsg p.1 p.2) := by
  induction ds with
  | nil => rfl
  | cons d ds ih =>
    simp only [checkDeps, firstUnresolvedDep]
    by_cases h : names.contains d = true
    · rw [if_pos h, if_pos h, ih]
    · rw [if_neg h, if_neg h]

theorem validateDependenciesGo_ok_iff (names : List String) (pts : List ParsedTool) :
    validateDependenciesGo names pts = .ok () ↔ ∀ t ∈ pts, ∀ d ∈ depsOf t, d ∈ names := by
  induction pts with
  | nil => simp [validateDependenciesGo]
  | cons t ts ih =>
    simp only [validateDependenciesGo]
    cases hc : checkDeps names t.name (depsOf t) with
    | ok u =>
      cases u
      rw [ih]
      have ht : ∀ d ∈ depsOf t, d ∈ names := (checkDeps_ok_iff names t.name (depsOf t)).mp hc
      rw [List.forall_mem_cons]
      exact ⟨fun h => ⟨ht, h⟩, fun h => h.2⟩
    | error e =>
      simp only [reduceCtorEq, false_iff]
      intro hall
      exact absurd ((checkDeps_ok_iff names t.name (depsOf t)).mpr (hall t (List.mem_cons_self t ts)))
        (by rw [hc]; simp)

theorem validateDependenciesGo_eq_first (names : List String) (pts : List ParsedTool) :
    validateDependenciesGo names pts =
      match firstUnresolvedGo names pts with
      | none => .ok ()
      | some p => .error (depErrorMsg p.1 p.2) := by
  induction pts with
  | nil => rfl
  | cons t ts ih =>
    simp only [validateDependenciesGo, firstUnresolvedGo, checkDeps_eq_firstUnresolvedDep]
    cases firstUnresolvedDep names t.name (depsOf t) with
    | none => simpa using ih
    | some p => rfl

/-- C3: construction succeeds exactly when every `depends_on` entry of every
parsed tool names some tool of the same construction-time list; on the first
unresolved reference it aborts with an error whose message carries the
literal form `Tool "X" depends on "Y" which is not found in the provided
tools list.` (followed by one further sentence). -/
theorem construct_validates_dependencies (findBlock : String → Option (String × String))
    (yamlLoad : String → YamlOutcome SkipConfig) (tools : List Tool) :
    ((SkipTools.construct findBlock yamlLoad tools).isOk = true ↔
      ∀ t ∈ parseTools findBlock yamlLoad tools, ∀ d ∈ depsOf t,
        d ∈ (parseTools findBlock yamlLoad tools).map (fun t => t.name)) ∧
    ∀ x y, firstUnresolved (parseTools findBlock yamlLoad tools) = some (x, y) →
      SkipTools.construct findBlock yamlLoad tools =
        .error (depErrorForm x y ++ " Dependencies must reference other tools in the same list.") := by
  have hval : validateDependencies (parseTools findBlock yamlLoad tools) =
      validateDependenciesGo ((parseTools findBlock yamlLoad tools).map (fun t => t.name))
        (parseTools findBlock yamlLoad tools) := rfl
  constructor
  · rw [← validateDependenciesGo_ok_iff ((parseTools findBlock yamlLoad tools).map (fun t => t.name))
      (parseTools findBlock yamlLoad tools), ← hval]
    rw [SkipTools.construct]
    cases hv : validateDependencies (parseTools findBlock yamlLoad tools) with
    | ok u => cases u; simp [Except.isOk, Except.toBool]
    | error e => simp [Except.isOk, Except.toBool]
  · intro x y hxy
    rw [SkipTools.construct]
    rw [hval, validateDependenciesGo_eq_first]
    rw [show firstUnresolvedGo ((parseTools findBlock yamlLoad tools).map (fun t => t.name))
      (parseTools findBlock yamlLoad tools) = firstUnresolved (parseTools findBlock yamlLoad tools) from rfl]
    rw [hxy]
    rfl

/-- Witness for C3 at a concrete input: a single tool `A` depending on a
missing tool `B` makes construction abort with the two-name message. -/
theorem construct_validates_dependencies_witness :
    SkipTools.construct noBlock failLoad [danglingToolRecord] =
      .error (depErrorForm "A" "B" ++ " Dependencies must reference other tools in the same list.") :=
  (construct_validates_dependencies noBlock failLoad [danglingToolRecord]).2 "A" "B" rfl

theorem addDependencies_self (pts : List ParsedTool) : addDependencies pts pts = pts := by
  rw [show addDependencies pts pts =
    pts.filter (fun t => (pts.map (fun f => f.name) ++ pts.flatMap depsOf).contains t.name) from rfl]
  rw [List.filter_eq_self]
  intro t ht
  have hmem : t.name ∈ pts.map (fun f => f.name) ++ pts.flatMap depsOf :=
    List.mem_append.mpr (Or.inl (List.mem_map.mpr ⟨t, ht, rfl⟩))
  simpa using hmem

theorem jsLengthIsZero_of_truthy_nonArray (v : JsVal)
    (htr : jsTruthy v = true) (harr : isArray v = false) : jsLengthIsZero v = false := by
  cases v with
  | arr l => simp [isArray] at harr
  | str s =>
    have hs : s ≠ "" := by simpa [jsTruthy] using htr
    have hl : s.length ≠ 0 := by
      obtain ⟨data⟩ := s
      cases data with
      | nil => exact absurd rfl hs
      | cons c cs => simp [String.length]
    simp [jsLengthIsZero, beq_eq_false_iff_ne, hl]
  | num k => rfl
  | nullVal => rfl

theorem dynToolPasses_error_of_truthy_nonArray (queryLower : String) (queryWords : List String)
    (n : String) (cfg : DynSkipConfig) (v : JsVal)
    (hkw : cfg.keywords = some v) (htr : jsTruthy v = true) (harr : isArray v = false) :
    dynToolPasses queryLower queryWords { name := n, skip := some cfg } = .error typeErrorSome := by
  have hlen := jsLengthIsZero_of_truthy_nonArray v htr harr
  simp only [dynToolPasses, hkw, htr, hlen, Bool.not_true, Bool.or_false, Bool.false_eq_true,
    if_false]
  cases v with
  | arr l => simp [isArray] at harr
  | str s => rfl
  | num k => rfl
  | nullVal => rfl

/-- The tools field of a filter result, written out. -/
theorem filter_tools_eq (e : SkipTools) (options : FilterOptions) :
    (SkipTools.filter e options).1.tools =
      (let extracted := extractQueryFromMessages e.lastProcessedMessageCount options.messages
        options.onlyNewMessages
       let afterKeywords :=
         if !(extracted.query == "") then filterByKeywords e.parsedTools extracted.query
         else e.parsedTools
       let withDeps := addDependencies e.parsedTools afterKeywords
       match options.maxTools with
       | some m => if !(m == 0) && withDeps.length > m then withDeps.take m else withDeps
       | none => withDeps) := rfl

/-- C4 (amended): with well-shaped (string-sequence) configurations,
`filter` is a total function of its inputs; with an empty messages array
`messagesProcessed` is 0, and the returned tools equal the full original
tool list provided `maxTools` does not truncate (absent, zero, or at least
the tool-list length). `filter` is not exception-free under every
configuration shape construction accepts: a tool whose `keywords` is a
truthy non-array value passes construction-time dependency validation, yet a
filter call whose extracted query is non-empty throws a TypeError in the
keyword-filtering step instead of returning a result. -/
theorem filter_empty_messages (e : SkipTools) (options : FilterOptions)
    (hm : options.messages = [])
    (hmax : ∀ m, options.maxTools = some m → m = 0 ∨ e.parsedTools.length ≤ m)
    (n : String) (cfg : DynSkipConfig) (v : JsVal) (lastC : Nat)
    (dmsgs : List Message) (dmt : Option Nat) (dflag : Bool)
    (hkw : cfg.keywords = some v) (hdep : cfg.depends_on = none)
    (htr : jsTruthy v = true) (harr : isArray v = false)
    (hq : (extractQueryFromMessages lastC dmsgs dflag).query ≠ "") :
    ((SkipTools.filter e options).1.tools = e.parsedTools ∧
      (SkipTools.filter e options).1.messagesProcessed = 0) ∧
    (dynValidateDependencies [{ name := n, skip := some cfg }] = .ok () ∧
      (DynSkipTools.filter
          { parsedTools := [{ name := n, skip := some cfg }], lastProcessedMessageCount := lastC }
          { messages := dmsgs, maxTools := dmt, onlyNewMessages := dflag }).1 =
        .error typeErrorSome) := by
  obtain ⟨omsgs, omt, oflag⟩ := options
  dsimp only at hm hmax
  subst hm
  have hq0 : (extractQueryFromMessages e.lastProcessedMessageCount [] oflag).query = "" := by
    simp [extractQueryFromMessages]
    rfl
  refine ⟨⟨?_, ?_⟩, ?_, ?_⟩
  · rw [filter_tools_eq]
    dsimp only
    rw [hq0]
    simp only [beq_self_eq_true, Bool.not_true, Bool.false_eq_true, if_false, addDependencies_self]
    rcases omt with _ | m
    · rfl
    · rcases hmax m rfl with h0 | hle
      · subst h0
        simp
      · have hnot : ¬ (e.parsedTools.length > m) := not_lt.mpr hle
        simp [hnot]
  · show ([] : List Message).length = 0
    rfl
  · have hcheck : dynCheckTool ([({ name := n, skip := some cfg } : DynParsedTool)].map
        (fun t => t.name)) { name := n, skip := some cfg } = .ok () := by
      simp only [dynCheckTool, hdep]
    simp only [dynValidateDependencies, dynValidateDependenciesGo, hcheck]
  · have hpass := dynToolPasses_error_of_truthy_nonArray
      (jsToLower (extractQueryFromMessages lastC dmsgs dflag).query)
      (queryWordsOf (jsToLower (extractQueryFromMessages lastC dmsgs dflag).query)) n cfg v hkw htr
      harr
    have hfil : dynFilterByKeywords [{ name := n, skip := some cfg }]
        (extractQueryFromMessages lastC dmsgs dflag).query = .error typeErrorSome := by
      simp only [dynFilterByKeywords, dynFilterGo, hpass]
    have hcond : ((extractQueryFromMessages lastC dmsgs dflag).query == "") = false :=
      beq_eq_false_iff_ne.mpr hq
    simp only [DynSkipTools.filter, hcond, Bool.not_false, if_true, hfil]

/-- C4 counterexample, refuting two facets of the claim as stated: with two
keyword-less tools, an empty message list, and maxTools 1, the returned
tools are a strict prefix of the original list; and a configuration whose
`keywords` is a truthy non-array value (a number) passes construction-time
dependency validation, yet a filter call with a non-empty query raises a
TypeError instead of returning a result. -/
theorem filter_empty_messages_counterexample :
    (¬ ((SkipTools.filter { parsedTools := twoTools, lastProcessedMessageCount := 0 }
        { messages := [], maxTools := some 1, onlyNewMessages := false }).1.tools = twoTools)) ∧
    dynValidateDependencies
        [{ name := "T", skip := some { depends_on := none, keywords := some (JsVal.num 7) } }] =
      .ok () ∧
    (DynSkipTools.filter
        { parsedTools :=
            [{ name := "T", skip := some { depends_on := none, keywords := some (JsVal.num 7) } }],
          lastProcessedMessageCount := 0 }
        { messages := [{ role := .user, content := some (.str "some request") }],
          maxTools := none, onlyNewMessages := false }).1 = .error typeErrorSome := by
  refine ⟨by decide, rfl, rfl⟩

/-- Witness for the amended C4 at concrete inputs: two keyword-less tools
with no truncation on the typed side; a number-valued `keywords` tool and a
one-message history on the dynamic side. -/
theorem filter_empty_messages_witness :
    ((SkipTools.filter { parsedTools := twoTools, lastProcessedMessageCount := 0 }
        { messages := [], maxTools := none, onlyNewMessages := false }).1.tools = twoTools ∧
      (SkipTools.filter { parsedTools := twoTools, lastProcessedMessageCount := 0 }
        { messages := [], maxTools := none, onlyNewMessages := false }).1.messagesProcessed = 0) ∧
    (dynValidateDependencies
        [{ name := "T", skip := some { depends_on := none, keywords := some (JsVal.num 7) } }] =
      .ok () ∧
      (DynSkipTools.filter
          { parsedTools :=
              [{ name := "T", skip := some { depends_on := none, keywords := some (JsVal.num 7) } }],
            lastProcessedMessageCount := 0 }
          { messages := [{ role := .user, content := some (.str "some request") }],
            maxTools := none, onlyNewMessages := false }).1 = .error typeErrorSome) :=
  filter_empty_messages _ _ rfl (by simp) "T" { depends_on := none, keywords := some (JsVal.num 7) }
    (JsVal.num 7) 0 [{ role := .user, content := some (.str "some request") }] none false
    rfl rfl rfl rfl (by decide)

/-- C5: every `filter` call reports the total length of the supplied message
array as `messagesProcessed`, for either value of `onlyNewMessages`, and
records that same total in the engine state. -/
theorem filter_messagesProcessed_total (e : SkipTools) (options : FilterOptions) :
    (SkipTools.filter e options).1.messagesProcessed = options.messages.length ∧
    (SkipTools.filter e options).2.lastProcessedMessageCount = options.messages.length :=
  ⟨rfl, rfl⟩

/-- C9: `filter` never changes the parsed tool list — after one call, or any
sequence of calls, the engine holds the same tools (names, descriptions,
configurations, length, order); the message counter is the only mutable
field. -/
theorem filter_preserves_parsedTools (e : SkipTools) (options : FilterOptions)
    (calls : List FilterOptions) :
    (SkipTools.filter e options).2.parsedTools = e.parsedTools ∧
    (calls.foldl (fun st o => (SkipTools.filter st o).2) e).parsedTools = e.parsedTools := by
  refine ⟨rfl, ?_⟩
  induction calls generalizing e with
  | nil => rfl
  | cons c cs ih => exact ih ((SkipTools.filter e c).2)

/-- C6: after a call on `opts1`, a filter call with `onlyNewMessages` set
derives its query exactly from the messages beyond the previous call's total
count — for any history of the form `pre ++ rest` with `pre` of the recorded
length, the query equals the one extracted from `rest` alone, so the first
messages contribute nothing. -/
theorem filter_onlyNew_window (e : SkipTools) (opts1 : FilterOptions) (pre rest : List Message)
    (h : pre.length = opts1.messages.length) :
    (extractQueryFromMessages (SkipTools.filter e opts1).2.lastProcessedMessageCount
        (pre ++ rest) true).query
      = (extractQueryFromMessages 0 rest false).query := by
  have h2 : (SkipTools.filter e opts1).2.lastProcessedMessageCount = pre.length := h ▸ rfl
  rw [h2]
  simp only [extractQueryFromMessages, List.drop_left, if_true, Bool.false_eq_true, if_false]

/-- Witness for C6 at a concrete input: after processing one message, a
windowed call on a two-message history reads only the second message. -/
theorem filter_onlyNew_window_witness :
    (extractQueryFromMessages
        (SkipTools.filter { parsedTools := twoTools, lastProcessedMessageCount := 0 }
            { messages := [{ role := .user, content := some (.str "old text") }],
              maxTools := none, onlyNewMessages := false }).2.lastProcessedMessageCount
        ([{ role := .user, content := some (.str "different old") }] ++
          [{ role := .user, content := some (.str "new request") }]) true).query
      = (extractQueryFromMessages 0 [{ role := .user, content := some (.str "new request") }] false).query :=
  filter_onlyNew_window _ _ _ _ rfl

/-- C10: with `onlyNewMessages` false, `filter` is history-independent — two
engines with the same parsed tool list return the same complete
`FilterResult` on identical arguments, whatever their recorded message
counts are. -/
theorem filter_history_independent (e1 e2 : SkipTools) (options : FilterOptions)
    (htools : e1.parsedTools = e2.parsedTools) (hflag : options.onlyNewMessages = false) :
    (SkipTools.filter e1 options).1 = (SkipTools.filter e2 options).1 := by
  obtain ⟨pts1, c1⟩ := e1
  obtain ⟨pts2, c2⟩ := e2
  dsimp only at htools
  subst htools
  simp [SkipTools.filter, extractQueryFromMessages, hflag]

/-- Witness for C10 at a concrete input: engines that differ only in the
recorded message count produce identical results when not windowing. -/
theorem filter_history_independent_witness :
    (SkipTools.filter { parsedTools := twoTools, lastProcessedMessageCount := 0 }
        { messages := [{ role := .user, content := some (.str "hi there") }],
          maxTools := none, onlyNewMessages := false }).1
      = (SkipTools.filter { parsedTools := twoTools, lastProcessedMessageCount := 7 }
          { messages := [{ role := .user, content := some (.str "hi there") }],
            maxTools := none, onlyNewMessages := false }).1 :=
  filter_history_independent _ _ _ rfl rfl

/-- C7 counterexample: a tool whose description carries a block that fails
to load, but which also supplies a configuration directly on the record,
does not end up configuration-less — `parseTools` falls back to the direct
configuration — and is not always included by filtering. -/
theorem parse_failure_counterexample :
    (parseTools blockFinder failLoad [blockTool]).map (fun p => p.skip) ≠ [none] ∧
    filterByKeywords (parseTools blockFinder failLoad [blockTool]) "hello there" = [] := by
  constructor
  · decide
  · decide

/-- C7 (amended): when a description's configuration block fails to parse, a
warning is logged, the block is still stripped from the clean description,
and the block contributes no configuration; the parsed tool falls back to a
configuration supplied directly on the `Tool` record, and only when none was
supplied does it carry no configuration — in which case every filter call
includes it. -/
theorem parse_failure_amended (findBlock : String → Option (String × String))
    (yamlLoad : String → YamlOutcome SkipConfig) (t : Tool) (matched yamlContent : String)
    (hfb : findBlock t.description = some (matched, yamlContent))
    (hyl : ∀ cfg, yamlLoad yamlContent ≠ YamlOutcome.obj cfg) :
    (parseToolDescription findBlock yamlLoad t.description).warned = true ∧
    (parseToolDescription findBlock yamlLoad t.description).cleanDescription =
      jsTrim (replaceFirst t.description matched) ∧
    (parseToolDescription findBlock yamlLoad t.description).skipConfig = none ∧
    (parseTools findBlock yamlLoad [t]).map (fun p => p.skip) = [t.skip] ∧
    (t.skip = none → ∀ q, filterByKeywords (parseTools findBlock yamlLoad [t]) q =
      parseTools findBlock yamlLoad [t]) := by
  have hp : parseToolDescription findBlock yamlLoad t.description =
      { cleanDescription := jsTrim (replaceFirst t.description matched), skipConfig := none,
        warned := true } := by
    cases hy : yamlLoad yamlContent with
    | obj cfg => exact absurd hy (hyl cfg)
    | loadError => simp only [parseToolDescription, hfb, hy]
    | nonObject => simp only [parseToolDescription, hfb, hy]
  have hpt : parseTools findBlock yamlLoad [t] =
      [{ name := t.name, description := t.description, skip := t.skip,
         originalDescription := t.description,
         cleanDescription := jsTrim (replaceFirst t.description matched) }] := by
    simp only [parseTools, List.map_cons, List.map_nil, hp]
    cases t.skip <;> rfl
  refine ⟨by rw [hp], by rw [hp], by rw [hp], by rw [hpt]; rfl, ?_⟩
  intro hskip q
  rw [hpt, hskip]
  show List.filter _ _ = _
  simp [toolPasses]

/-- Witness for the amended C7 at a concrete input (no directly supplied
configuration, so the tool ends configuration-less and always included). -/
theorem parse_failure_amended_witness :
    (parseToolDescription blockFinder failLoad plainBlockTool.description).warned = true ∧
    (parseToolDescription blockFinder failLoad plainBlockTool.description).cleanDescription =
      jsTrim (replaceFirst plainBlockTool.description "\nskip:\n  bad: [") ∧
    (parseToolDescription blockFinder failLoad plainBlockTool.description).skipConfig = none ∧
    (parseTools blockFinder failLoad [plainBlockTool]).map (fun p => p.skip) = [plainBlockTool.skip] ∧
    (plainBlockTool.skip = none → ∀ q,
      filterByKeywords (parseTools blockFinder failLoad [plainBlockTool]) q =
        parseTools blockFinder failLoad [plainBlockTool]) :=
  parse_failure_amended blockFinder failLoad plainBlockTool "\nskip:\n  bad: [" "  bad: ["
    (by decide) (fun cfg h => YamlOutcome.noConfusion h)

/-- C8 counterexample: a configuration whose `keywords` is a (truthy)
string, not an array, makes the keyword filter raise a TypeError instead of
treating the configuration as absent. -/
theorem dyn_wrongShape_counterexample :
    (dynFilterByKeywords
        [{ name := "T", skip := some { depends_on := none, keywords := some (JsVal.str "database") } }]
        "query words").isOk = false := by
  decide

/-- C8 (amended): for a configuration whose `keywords` or `depends_on` is
present but not an array, the parser does not throw (a loaded mapping is
returned as-is, with no warning), and `validateSkipConfig` rejects it when
the value is truthy — but the downstream filtering operations do not treat
it as absent: a truthy non-array `keywords` makes the keyword filter raise a
TypeError, a truthy non-array `depends_on` makes `validateDependencies`
raise a TypeError, and only a falsy value (empty string, zero, null) is
treated as if the field were not declared. -/
theorem dyn_wrongShape_behavior (cfg cfg2 : DynSkipConfig) (v w : JsVal) (n : String)
    (queryLower : String) (queryWords : List String)
    (findBlock : String → Option (String × String)) (yamlLoad : String → YamlOutcome DynSkipConfig)
    (d m y : String)
    (hkw : cfg.keywords = some v) (harr : isArray v = false)
    (hdep2 : cfg2.depends_on = some w) (harr2 : isArray w = false) :
    (jsTruthy v = true →
      validateSkipConfig cfg = false ∧
      dynToolPasses queryLower queryWords { name := n, skip := some cfg } = .error typeErrorSome) ∧
    (jsTruthy v = false →
      dynToolPasses queryLower queryWords { name := n, skip := some cfg } = .ok true) ∧
    (jsTruthy w = true →
      validateSkipConfig cfg2 = false ∧
      dynValidateDependencies [{ name := n, skip := some cfg2 }] = .error typeErrorForEach) ∧
    (jsTruthy w = false →
      dynValidateDependencies [{ name := n, skip := some cfg2 }] = .ok ()) ∧
    (findBlock d = some (m, y) → yamlLoad y = .obj cfg →
      (parseToolDescription findBlock yamlLoad d).skipConfig = some cfg ∧
      (parseToolDescription findBlock yamlLoad d).warned = false) := by
  refine ⟨fun htr => ⟨?_, ?_⟩, fun hfa => ?_, fun htr2 => ⟨?_, ?_⟩, fun hfa2 => ?_,
    fun hfb hobj => ?_⟩
  · simp only [validateSkipConfig, hkw, htr, harr, Bool.not_true, Bool.or_self, Bool.and_false]
  · exact dynToolPasses_error_of_truthy_nonArray queryLower queryWords n cfg v hkw htr harr
  · simp only [dynToolPasses, hkw, hfa, Bool.not_false, Bool.true_or, if_true]
  · simp only [validateSkipConfig, hdep2, htr2, harr2, Bool.not_true, Bool.or_self,
      Bool.false_and]
  · have hcheck : dynCheckTool ([({ name := n, skip := some cfg2 } : DynParsedTool)].map
        (fun t => t.name)) { name := n, skip := some cfg2 } = .error typeErrorForEach := by
      simp only [dynCheckTool, hdep2, htr2, Bool.not_true, Bool.false_eq_true, if_false]
      cases w with
      | arr l => simp [isArray] at harr2
      | str s => rfl
      | num k => rfl
      | nullVal => rfl
    simp only [dynValidateDependencies, dynValidateDependenciesGo, hcheck]
  · have hcheck : dynCheckTool ([({ name := n, skip := some cfg2 } : DynParsedTool)].map
        (fun t => t.name)) { name := n, skip := some cfg2 } = .ok () := by
      simp only [dynCheckTool, hdep2, hfa2, Bool.not_false, if_true]
    simp only [dynValidateDependencies, dynValidateDependenciesGo, hcheck]
  · have hp : parseToolDescription findBlock yamlLoad d =
        { cleanDescription := jsTrim (replaceFirst d m), skipConfig := some cfg, warned := false } := by
      simp only [parseToolDescription, hfb, hobj]
    rw [hp]
    exact ⟨rfl, rfl⟩

/-- Witness for the amended C8 at concrete inputs: `keywords: "db"` is
rejected by the shape check and raises a TypeError in the keyword filter;
`depends_on: "other"` is rejected by the shape check and raises a TypeError
in dependency validation. -/
theorem dyn_wrongShape_behavior_witness :
    (validateSkipConfig { depends_on := none, keywords := some (JsVal.str "db") } = false ∧
      dynToolPasses "query" []
          { name := "T", skip := some { depends_on := none, keywords := some (JsVal.str "db") } } =
        .error typeErrorSome) ∧
    (validateSkipConfig { depends_on := some (JsVal.str "other"), keywords := none } = false ∧
      dynValidateDependencies
          [{ name := "T", skip := some { depends_on := some (JsVal.str "other"), keywords := none } }] =
        .error typeErrorForEach) := by
  have h := dyn_wrongShape_behavior { depends_on := none, keywords := some (JsVal.str "db") }
    { depends_on := some (JsVal.str "other"), keywords := none } (JsVal.str "db")
    (JsVal.str "other") "T" "query" [] noBlock (fun _ => YamlOutcome.loadError) "" "" ""
    rfl rfl rfl rfl
  exact ⟨h.1 rfl, h.2.2.1 rfl⟩
